import Mathlib

/-!
A shallow embedding of the MDS journal event module
(branches/sage/cephmds2/mds/journal.cc) and proofs about its
expiration, replay and error-handling behaviour.

Journal events query and mutate the running MDS through a handful of
subsystems (MDCache, AnchorClient, ClientMap, IdAllocator, AnchorTable,
MDLog, Migrator).  The embedding keeps, for each subsystem, exactly the
state the journal code reads or writes, and translates each event
method into a pure Lean function over that state.  Fatal assertions
(assert(0) and friends) are modelled by returning none from an
Option-valued function.
-/

set_option linter.unusedVariables false
set_option linter.unnecessarySeqFocus false

/-- A directory fragment identifier: (inode number, fragment). Mirrors dirfrag_t. -/
structure dirfrag_t where
  ino : Nat
  frag : Nat
deriving DecidableEq, Repr

/-- The slice of cached CDir state that journal.cc reads:
authority().first, get_committed_version(), is_ambiguous_dir_auth(). -/
structure CDirState where
  auth_first : Int
  committed_version : Nat
  ambiguous_dir_auth : Bool
deriving DecidableEq, Repr

/-- The slice of cached CInode state that journal.cc reads:
is_any_caps() and last_open_journaled. -/
structure CInodeState where
  any_caps : Bool
  last_open_journaled : Nat
deriving DecidableEq, Repr

/-- Modelled from the spec: the IdAlloc table behind mds->idalloc.
journal.cc only calls get_version, get_committed_version,
alloc_id(true) and reclaim_id(id, true); the allocator internals are
outside this module, so they are modelled minimally: every mutation
advances version by one, alloc_id hands out next_id, reclaim_id
returns an id to the free list. -/
structure IdAllocState where
  version : Nat
  committed_version : Nat
  next_id : Nat
  free_ids : List Nat
deriving DecidableEq, Repr

/-- Modelled from the spec: IdAlloc.alloc_id(recovering) returns a fresh id
and advances the table version by one. -/
def IdAllocState.alloc_id (s : IdAllocState) : Nat × IdAllocState :=
  (s.next_id, { s with next_id := s.next_id + 1, version := s.version + 1 })

/-- Modelled from the spec: IdAlloc.reclaim_id(id, recovering) reclaims the id
and advances the table version by one. -/
def IdAllocState.reclaim_id (s : IdAllocState) (id : Nat) : IdAllocState :=
  { s with free_ids := id :: s.free_ids, version := s.version + 1 }

/-- A dirlump as read by the expiration paths: the target dir version.
(The encoded full/remote/null bit lists and the dirty/complete flags are
only touched by the dentry-level part of replay, which no claim here is
about, so they are not carried.) -/
structure dirlump where
  dirv : Nat
deriving DecidableEq, Repr

/-- EMetaBlob: the ordered batch of dirfrag mutations plus anchor, purge
and client-request tie-ins (journal.cc lines 85-431). -/
structure EMetaBlob where
  lump_order : List dirfrag_t
  lump_map : List (dirfrag_t × dirlump)
  atids : List Nat
  truncated_inodes : List (Nat × Nat)
  client_reqs : List Nat
deriving DecidableEq, Repr

/-- The MDS state visible to journal.cc: the cached dirfrags and inodes,
the anchor-client committed set, the purge set, the completed client
requests, the client map versions, the id allocator, the anchor table
committed version, the import-map bookkeeping of the MDLog, the set of
dirs the migrator is exporting, and the log write position. -/
structure MDSState where
  nodeid : Int
  dirfrags : List (dirfrag_t × CDirState)
  inodes : List (Nat × CInodeState)
  anchor_committed : List Nat
  purging : List (Nat × Nat)
  completed_requests : List Nat
  clientmap_committed : Nat
  clientmap_committing : Nat
  idalloc : IdAllocState
  anchortable_committed : Nat
  last_import_map : Nat
  capped : Bool
  exporting_dirs : List dirfrag_t
  write_pos : Nat
deriving DecidableEq, Repr

/-- Association-list lookup (the cache lookups get_dirfrag / get_inode and
the uncommitted_slave_updates map are modelled as association lists). -/
def alookup {α β : Type} [DecidableEq α] : List (α × β) → α → Option β
  | [], _ => none
  | p :: rest, k => if p.1 = k then some p.2 else alookup rest k

/-- One dirlump of EMetaBlob::has_expired (journal.cc lines 91-128):
dir not cached, not auth, or committed are satisfied (some true);
ambiguous authority or uncommitted yield some false (the exporting and
importing subcases of the ambiguous branch differ only in the log
message and both return false); the trailing assert(0) is none. -/
def lump_check (mds : MDSState) (df : dirfrag_t) (l : dirlump) : Option Bool :=
  match alookup mds.dirfrags df with
  | none => some true
  | some dir =>
    if dir.auth_first ≠ mds.nodeid then some true
    else if l.dirv ≤ dir.committed_version then some true
    else if dir.ambiguous_dir_auth then some false
    else if dir.committed_version < l.dirv then some false
    else none

/-- The dirlump loop of EMetaBlob::has_expired: each lump either passes
(continue) or makes the whole event unexpired (return false). -/
def checkLumps (mds : MDSState) : List (dirfrag_t × dirlump) → Option Bool
  | [] => some true
  | (df, l) :: rest =>
    match lump_check mds df l with
    | none => none
    | some false => some false
    | some true => checkLumps mds rest

/-- EMetaBlob::has_expired (journal.cc lines 85-166): all dirlumps
satisfied, all anchor transactions acked, no truncated inode still
purging, no client request still registered as completed. -/
def EMetaBlob.has_expired (mds : MDSState) (b : EMetaBlob) : Option Bool :=
  match checkLumps mds b.lump_map with
  | none => none
  | some false => some false
  | some true =>
    some ((b.atids.all fun a => decide (a ∈ mds.anchor_committed))
      && (b.truncated_inodes.all fun p => !decide (p ∈ mds.purging))
      && (b.client_reqs.all fun r => !decide (r ∈ mds.completed_requests)))

/-- What an expire method of an always-expired event does when invoked. -/
inductive ExpireOutcome where
  | aborts
  | noop
deriving DecidableEq, Repr

/-- EString::has_expired (journal.cc line 53): always true. -/
def EString.has_expired (mds : MDSState) : Bool := true

/-- EString::expire (journal.cc lines 57-60): prints and returns; it
neither aborts nor touches the completion. -/
def EString.expire (mds : MDSState) : ExpireOutcome := ExpireOutcome.noop

/-- EAnchorClient::has_expired (journal.cc line 624): always true. -/
def EAnchorClient.has_expired (mds : MDSState) : Bool := true

/-- EAnchorClient::expire (journal.cc lines 629-632): assert(0). -/
def EAnchorClient.expire (mds : MDSState) : ExpireOutcome := ExpireOutcome.aborts

/-- EPurgeFinish::has_expired (journal.cc line 835): always true. -/
def EPurgeFinish.has_expired (mds : MDSState) : Bool := true

/-- EPurgeFinish::expire (journal.cc lines 840-843): assert(0). -/
def EPurgeFinish.expire (mds : MDSState) : ExpireOutcome := ExpireOutcome.aborts

/-- EImportFinish::has_expired (journal.cc line 929): always true. -/
def EImportFinish.has_expired (mds : MDSState) : Bool := true

/-- EImportFinish::expire (journal.cc lines 933-936): assert(0). -/
def EImportFinish.expire (mds : MDSState) : ExpireOutcome := ExpireOutcome.aborts

/-- EClientMap::has_expired (journal.cc lines 436-451): committed >= cmapv
is expired; a committing >= cmapv in flight, or neither, is not. -/
def EClientMap.has_expired (mds : MDSState) (cmapv : Nat) : Bool :=
  if cmapv ≤ mds.clientmap_committed then true
  else if cmapv ≤ mds.clientmap_committing then false
  else false

/-- The branch EClientMap::expire / ESession::expire takes. -/
inductive ExpireAction where
  | add_commit_waiter
  | log_clientmap
deriving DecidableEq, Repr

/-- EClientMap::expire (journal.cc lines 453-463): if committing >= cmapv,
assert committing > committed (none on failure) and attach the
completion to the in-flight commit; else start a new commit. -/
def EClientMap.expire (mds : MDSState) (cmapv : Nat) : Option ExpireAction :=
  if cmapv ≤ mds.clientmap_committing then
    if mds.clientmap_committed < mds.clientmap_committing then
      some ExpireAction.add_commit_waiter
    else none
  else some ExpireAction.log_clientmap

/-- ESession::has_expired (journal.cc lines 476-491): textually identical
to EClientMap::has_expired. -/
def ESession.has_expired (mds : MDSState) (cmapv : Nat) : Bool :=
  if cmapv ≤ mds.clientmap_committed then true
  else if cmapv ≤ mds.clientmap_committing then false
  else false

/-- ESession::expire (journal.cc lines 493-503): textually identical to
EClientMap::expire. -/
def ESession.expire (mds : MDSState) (cmapv : Nat) : Option ExpireAction :=
  if cmapv ≤ mds.clientmap_committing then
    if mds.clientmap_committed < mds.clientmap_committing then
      some ExpireAction.add_commit_waiter
    else none
  else some ExpireAction.log_clientmap

/-- The EAlloc operation tag (EALLOC_EV_ALLOC / EALLOC_EV_FREE). -/
inductive EAllocWhat where
  | EALLOC_EV_ALLOC
  | EALLOC_EV_FREE
deriving DecidableEq, Repr

/-- EAlloc::has_expired (journal.cc lines 520-532): still dirty while
idalloc committed version < table_version. -/
def EAlloc.has_expired (mds : MDSState) (table_version : Nat) : Bool :=
  if mds.idalloc.committed_version < table_version then false
  else true

/-- EAlloc::replay (journal.cc lines 540-562): skip when the live table
is already at or past the event version; otherwise assert the table is
exactly one version behind, apply the op (ALLOC must yield exactly the
recorded id), and assert the table landed on table_version.  Failed
asserts are none. -/
def EAlloc.replay (mds : MDSState) (what : EAllocWhat) (id : Nat)
    (table_version : Nat) : Option MDSState :=
  if table_version ≤ mds.idalloc.version then some mds
  else if mds.idalloc.version ≠ table_version - 1 then none
  else
    match what with
    | EAllocWhat.EALLOC_EV_ALLOC =>
      let r := mds.idalloc.alloc_id
      if r.1 ≠ id then none
      else if r.2.version ≠ table_version then none
      else some { mds with idalloc := r.2 }
    | EAllocWhat.EALLOC_EV_FREE =>
      let ia := mds.idalloc.reclaim_id id
      if ia.version ≠ table_version then none
      else some { mds with idalloc := ia }

/-- EAnchor::has_expired (journal.cc lines 568-580): still dirty while the
anchor table committed version < the event version. -/
def EAnchor.has_expired (mds : MDSState) (version : Nat) : Bool :=
  if mds.anchortable_committed < version then false
  else true

/-- EOpen::has_expired (journal.cc lines 672-685): unexpired iff some
inode in inos is cached, holds caps, and its last_open_journaled is
neither past this event's start offset nor zero. -/
def EOpen.has_expired (mds : MDSState) (inos : List Nat) (start_off : Nat) : Bool :=
  inos.all fun i =>
    match alookup mds.inodes i with
    | none => true
    | some ci =>
      !(ci.any_caps &&
        !(decide (start_off < ci.last_open_journaled) || decide (ci.last_open_journaled = 0)))

/-- The ESlaveUpdate operation tag. -/
inductive SlaveOp where
  | OP_PREPARE
  | OP_COMMIT
  | OP_ABORT
deriving DecidableEq, Repr

/-- The state ESlaveUpdate::replay acts on: the
mdcache->uncommitted_slave_updates map, plus a trace of the metablobs
that replay applied to the namespace (each
uncommitted_slave_updates[reqid].replay(mds) call appends one entry). -/
structure SlaveState where
  uncommitted_slave_updates : List (Nat × EMetaBlob)
  applied : List EMetaBlob
deriving DecidableEq, Repr

/-- ESlaveUpdate::replay (journal.cc lines 730-763).  PREPARE asserts no
record exists for reqid and stores the blob without applying it; COMMIT
applies and erases a stored blob if present, else ignores; ABORT erases
a stored blob if present without applying, else ignores. -/
def ESlaveUpdate.replay (op : SlaveOp) (reqid : Nat) (metablob : EMetaBlob)
    (s : SlaveState) : Option SlaveState :=
  match op with
  | SlaveOp.OP_PREPARE =>
    if (alookup s.uncommitted_slave_updates reqid).isSome then none
    else some { s with
      uncommitted_slave_updates := (reqid, metablob) :: s.uncommitted_slave_updates }
  | SlaveOp.OP_COMMIT =>
    match alookup s.uncommitted_slave_updates reqid with
    | some b =>
      some { uncommitted_slave_updates :=
               s.uncommitted_slave_updates.filter fun p => decide (p.1 ≠ reqid),
             applied := s.applied ++ [b] }
    | none => some s
  | SlaveOp.OP_ABORT =>
    some { s with
      uncommitted_slave_updates :=
        s.uncommitted_slave_updates.filter fun p => decide (p.1 ≠ reqid) }

/-- One journaled slave update, for replaying sequences. -/
structure SlaveEvent where
  op : SlaveOp
  reqid : Nat
  metablob : EMetaBlob
deriving DecidableEq, Repr

/-- Replay a sequence of slave updates in log order. -/
def replaySlaveSeq : List SlaveEvent → SlaveState → Option SlaveState
  | [], s => some s
  | e :: rest, s =>
    match ESlaveUpdate.replay e.op e.reqid e.metablob s with
    | none => none
    | some s' => replaySlaveSeq rest s'

/-- EImportMap::has_expired (journal.cc lines 769-782): a newer import map
(mdlog last_import_map past this event's end offset), or a capped log,
means expired; else not. -/
def EImportMap.has_expired (mds : MDSState) (end_off : Nat) : Bool :=
  if end_off < mds.last_import_map then true
  else if mds.capped then true
  else false

/-- EExport::has_expired (journal.cc lines 860-868): expired when the base
dirfrag is no longer cached or the migrator is no longer exporting it. -/
def EExport.has_expired (mds : MDSState) (base : dirfrag_t) : Bool :=
  match alookup mds.dirfrags base with
  | none => true
  | some _ => !decide (base ∈ mds.exporting_dirs)

/-- The journal event taxonomy, carrying exactly the fields each
has_expired reads. -/
inductive LogEvent where
  | estring : LogEvent
  | eclientmap (cmapv : Nat) : LogEvent
  | esession (cmapv : Nat) : LogEvent
  | ealloc (what : EAllocWhat) (id : Nat) (table_version : Nat) : LogEvent
  | eanchor (version : Nat) : LogEvent
  | eanchorclient : LogEvent
  | eupdate (metablob : EMetaBlob) : LogEvent
  | eopen (metablob : EMetaBlob) (inos : List Nat) (start_off : Nat) : LogEvent
  | eslaveupdate (metablob : EMetaBlob) (op : SlaveOp) (reqid : Nat) : LogEvent
  | eimportmap (end_off : Nat) : LogEvent
  | epurgefinish : LogEvent
  | eexport (base : dirfrag_t) : LogEvent
  | eimportstart (metablob : EMetaBlob) : LogEvent
  | eimportfinish : LogEvent
deriving DecidableEq, Repr

/-- The virtual has_expired dispatch.  EUpdate, ESlaveUpdate and
EImportStart forward to their embedded metablob (journal.cc lines 653,
720, 906); the always-expired events return true. -/
def LogEvent.has_expired : LogEvent → MDSState → Option Bool
  | LogEvent.estring, _ => some true
  | LogEvent.eclientmap cmapv, mds => some (EClientMap.has_expired mds cmapv)
  | LogEvent.esession cmapv, mds => some (ESession.has_expired mds cmapv)
  | LogEvent.ealloc _ _ tv, mds => some (EAlloc.has_expired mds tv)
  | LogEvent.eanchor v, mds => some (EAnchor.has_expired mds v)
  | LogEvent.eanchorclient, _ => some true
  | LogEvent.eupdate b, mds => EMetaBlob.has_expired mds b
  | LogEvent.eopen _ inos so, mds => some (EOpen.has_expired mds inos so)
  | LogEvent.eslaveupdate b _ _, mds => EMetaBlob.has_expired mds b
  | LogEvent.eimportmap eo, mds => some (EImportMap.has_expired mds eo)
  | LogEvent.epurgefinish, _ => some true
  | LogEvent.eexport base, mds => some (EExport.has_expired mds base)
  | LogEvent.eimportstart b, mds => EMetaBlob.has_expired mds b
  | LogEvent.eimportfinish, _ => some true

/-- Well-formedness of a logged event against the state: an Open event in
the log began before the current write position.  (New open records are
journaled at the write position, so a journaled event's start offset is
always below it.) -/
def LogEvent.wf : LogEvent → MDSState → Prop
  | LogEvent.eopen _ _ so, mds => so < mds.write_pos
  | _, _ => True

/-- A cached dir evolving forward: authority and ambiguity unchanged,
committed version only advancing. -/
def dirEvolves (d d' : CDirState) : Prop :=
  d'.auth_first = d.auth_first ∧ d'.ambiguous_dir_auth = d.ambiguous_dir_auth ∧
  d.committed_version ≤ d'.committed_version

/-- A cached inode evolving forward: caps only released, and
last_open_journaled either untouched or re-journaled at or past the old
write position. -/
def inodeEvolves (wp : Nat) (ci ci' : CInodeState) : Prop :=
  (ci'.any_caps = true → ci.any_caps = true) ∧
  (ci'.last_open_journaled = ci.last_open_journaled ∨ wp ≤ ci'.last_open_journaled)

/-- A normal forward evolution of the MDS state within one epoch: cache
entries are only dropped and surviving ones evolve forward, anchor
commits accumulate, purges and completed-request registrations only
retire, version counters and the write position only advance, a capped
log stays capped, and exports only finish. -/
def Evolves (s s' : MDSState) : Prop :=
  s'.nodeid = s.nodeid ∧
  (∀ df d', alookup s'.dirfrags df = some d' →
    ∃ d, alookup s.dirfrags df = some d ∧ dirEvolves d d') ∧
  (∀ i ci', alookup s'.inodes i = some ci' →
    ∃ ci, alookup s.inodes i = some ci ∧ inodeEvolves s.write_pos ci ci') ∧
  (∀ a, a ∈ s.anchor_committed → a ∈ s'.anchor_committed) ∧
  (∀ p, p ∈ s'.purging → p ∈ s.purging) ∧
  (∀ r, r ∈ s'.completed_requests → r ∈ s.completed_requests) ∧
  s.clientmap_committed ≤ s'.clientmap_committed ∧
  s.clientmap_committing ≤ s'.clientmap_committing ∧
  s.idalloc.committed_version ≤ s'.idalloc.committed_version ∧
  s.anchortable_committed ≤ s'.anchortable_committed ∧
  s.last_import_map ≤ s'.last_import_map ∧
  (s.capped = true → s'.capped = true) ∧
  (∀ df, df ∈ s'.exporting_dirs → df ∈ s.exporting_dirs) ∧
  s.write_pos ≤ s'.write_pos

/-- What EMetaBlob::expire does with one dirlump (journal.cc lines
178-222): skip it, schedule a commit to the lump's dirv, or wait for
the migration on the subtree root to finish (the exporting and
importing subcases each register exactly one waiter, so only the count
matters here); the trailing assert(0) is bad. -/
inductive LumpAction where
  | skip
  | commitTo (dirv : Nat)
  | waitMigration
  | bad
deriving DecidableEq, Repr

/-- The branch EMetaBlob::expire takes for one dirlump; same guards, in
the same order, as lump_check. -/
def lump_action (mds : MDSState) (df : dirfrag_t) (l : dirlump) : LumpAction :=
  match alookup mds.dirfrags df with
  | none => LumpAction.skip
  | some dir =>
    if dir.auth_first ≠ mds.nodeid then LumpAction.skip
    else if l.dirv ≤ dir.committed_version then LumpAction.skip
    else if dir.ambiguous_dir_auth then LumpAction.waitMigration
    else if dir.committed_version < l.dirv then LumpAction.commitTo l.dirv
    else LumpAction.bad

/-- commit[dir] = MAX(commit[dir], dirv) (journal.cc line 216): the
commit map collapses multiple lumps on one dir to the maximum version. -/
def commitInsert (m : List (dirfrag_t × Nat)) (df : dirfrag_t) (v : Nat) :
    List (dirfrag_t × Nat) :=
  match alookup m df with
  | none => m ++ [(df, v)]
  | some old => m.map fun p => if p.1 = df then (df, max old v) else p

/-- The dirlump loop of EMetaBlob::expire, folded into the commit map and
the number of migration waiters; none models the assert(0). -/
def classifyLumps (mds : MDSState) :
    List (dirfrag_t × dirlump) → List (dirfrag_t × Nat) → Nat →
    Option (List (dirfrag_t × Nat) × Nat)
  | [], cm, nwait => some (cm, nwait)
  | (df, l) :: rest, cm, nwait =>
    match lump_action mds df l with
    | LumpAction.skip => classifyLumps mds rest cm nwait
    | LumpAction.commitTo v => classifyLumps mds rest (commitInsert cm df v) nwait
    | LumpAction.waitMigration => classifyLumps mds rest cm (nwait + 1)
    | LumpAction.bad => none

/-- How many sub-completions EMetaBlob::expire registers on its C_Gather
(journal.cc lines 224-280): one per commit-map entry (commit when
auth-pinnable, else an authpinnable waiter - one sub either way), one
per migration-ambiguous lump, one per unacked anchor transaction, one
per still-purging truncated inode, one per still-registered client
request. -/
def EMetaBlob.expire_subs (mds : MDSState) (b : EMetaBlob) : Option Nat :=
  match classifyLumps mds b.lump_map [] 0 with
  | none => none
  | some (cm, nwait) =>
    some (cm.length + nwait
      + (b.atids.filter fun a => !decide (a ∈ mds.anchor_committed)).length
      + (b.truncated_inodes.filter fun p => decide (p ∈ mds.purging)).length
      + (b.client_reqs.filter fun r => decide (r ∈ mds.completed_requests)).length)

/-- Modelled from the spec: C_Gather (Context.h is outside this module).
pending counts handed-out subs that have not yet fired; fired counts
firings of the wrapped target completion. -/
structure C_Gather where
  pending : Nat
  fired : Nat
deriving DecidableEq, Repr

/-- Modelled from the spec: a sub fires, decrementing the pending count;
the target fires exactly when the count reaches zero. -/
def C_Gather.sub_finish (g : C_Gather) : C_Gather :=
  if g.pending = 1 then { pending := 0, fired := g.fired + 1 }
  else { pending := g.pending - 1, fired := g.fired }

/-- Modelled from the spec: a Gather created with zero subs fires its
target at the creator's next pump. -/
def C_Gather.pump (g : C_Gather) : C_Gather :=
  if g.pending = 0 then { g with fired := g.fired + 1 } else g

/-- Fire n subs in sequence. -/
def fireAll : Nat → C_Gather → C_Gather
  | 0, g => g
  | n + 1, g => fireAll n g.sub_finish

/-- The number of times a Gather holding n subs fires its target, once
every registered sub has fired (each external dependency invokes its
sub exactly once). -/
def gatherFireCount (n : Nat) : Nat :=
  (fireAll n (C_Gather.pump { pending := n, fired := 0 })).fired

/-- The number of times EMetaBlob::expire(mds, c) causes the completion c
to fire, assuming every dependency it registers with eventually
completes; none models the unreachable assert(0) in the dirlump loop. -/
def EMetaBlob.expireFireCount (mds : MDSState) (b : EMetaBlob) : Option Nat :=
  (EMetaBlob.expire_subs mds b).map gatherFireCount

/-- The root inode number: EMetaBlob::replay compares the dirfrag's inode
against MDS_INO_ROOT and later against the literal 1 for the same case
(journal.cc lines 300 and 313). -/
def MDS_INO_ROOT : Nat := 1

/-- The containing-inode resolution step of EMetaBlob::replay for one
dirfrag (journal.cc lines 295-316), abstracted over the cache contents:
a cached dirfrag is reused; a missing dirfrag on a cached inode is
opened; a missing inode is created when it is the root or a stray
(isStray models the MDS_INO_IS_STRAY macro, declared outside this
module) and the walk aborts fatally (none) otherwise. -/
def replayDirStep (isStray : Nat → Bool) (df : dirfrag_t)
    (dirs : List dirfrag_t) (inos : List Nat) :
    Option (List dirfrag_t × List Nat) :=
  if df ∈ dirs then some (dirs, inos)
  else if df.ino ∈ inos then some (df :: dirs, inos)
  else if df.ino = MDS_INO_ROOT then some (df :: dirs, df.ino :: inos)
  else if isStray df.ino then some (df :: dirs, df.ino :: inos)
  else none

/-- The dirfrag walk of EMetaBlob::replay over lump_order, tracking the
cached dirfrags and inodes it reuses or creates. -/
def replayDirs (isStray : Nat → Bool) :
    List dirfrag_t → List dirfrag_t → List Nat →
    Option (List dirfrag_t × List Nat)
  | [], dirs, inos => some (dirs, inos)
  | df :: rest, dirs, inos =>
    match replayDirStep isStray df dirs inos with
    | none => none
    | some (dirs', inos') => replayDirs isStray rest dirs' inos'

/-- An MDS state with nothing cached and all counters at zero. -/
def emptyMDS : MDSState :=
  { nodeid := 0, dirfrags := [], inodes := [], anchor_committed := [],
    purging := [], completed_requests := [], clientmap_committed := 0,
    clientmap_committing := 0,
    idalloc := { version := 0, committed_version := 0, next_id := 0, free_ids := [] },
    anchortable_committed := 0, last_import_map := 0, capped := false,
    exporting_dirs := [], write_pos := 0 }

/-- An empty metablob. -/
def emptyBlob : EMetaBlob :=
  { lump_order := [], lump_map := [], atids := [], truncated_inodes := [],
    client_reqs := [] }

/-- C1 fixture: the dirfrag of the single lump. -/
def c1df : dirfrag_t := { ino := 10, frag := 0 }

/-- C1 counterexample fixture: a dir with ambiguous authority whose
committed version is already past the lump's target version. -/
def c1dir : CDirState :=
  { auth_first := 0, committed_version := 10, ambiguous_dir_auth := true }

/-- C1 fixture: a metablob holding one lump targeting dirv 5 on c1df. -/
def c1blob : EMetaBlob :=
  { emptyBlob with lump_order := [c1df], lump_map := [(c1df, { dirv := 5 })] }

/-- C1 counterexample fixture: the MDS caching c1df as c1dir. -/
def c1mds : MDSState := { emptyMDS with dirfrags := [(c1df, c1dir)] }

/-- C1 witness fixture: the same dir but with committed version still
behind the lump's target version. -/
def c1wdir : CDirState :=
  { auth_first := 0, committed_version := 3, ambiguous_dir_auth := true }

/-- C1 witness fixture: the MDS caching c1df as c1wdir. -/
def c1wmds : MDSState := { emptyMDS with dirfrags := [(c1df, c1wdir)] }

/-- C4 counterexample fixture: inode 7 cached without client caps. -/
def c4sA : MDSState :=
  { emptyMDS with
    inodes := [(7, { any_caps := false, last_open_journaled := 300 })],
    write_pos := 1000 }

/-- C4 counterexample fixture: the same state after a client re-acquires
caps on inode 7 (an evolution of the capability state). -/
def c4sB : MDSState :=
  { emptyMDS with
    inodes := [(7, { any_caps := true, last_open_journaled := 300 })],
    write_pos := 1000 }

/-- C4 witness fixture: an import map was last written at offset 20. -/
def c4ws : MDSState := { emptyMDS with last_import_map := 20 }

/-- C4 witness fixture: a later state where a newer import map was
written at offset 30. -/
def c4ws' : MDSState := { emptyMDS with last_import_map := 30 }

/-- C6 witness fixture: the slave-update map starts empty. -/
def c6s0 : SlaveState := { uncommitted_slave_updates := [], applied := [] }

/-- C6 witness fixture: a PREPARE for reqid 5. -/
def c6prep : SlaveEvent :=
  { op := SlaveOp.OP_PREPARE, reqid := 5, metablob := emptyBlob }

/-- C6 witness fixture: the closing ABORT for reqid 5. -/
def c6fin : SlaveEvent :=
  { op := SlaveOp.OP_ABORT, reqid := 5, metablob := emptyBlob }

/-- C6 witness fixture: the state after replaying the prepare/abort pair. -/
def c6sFinal : SlaveState := { uncommitted_slave_updates := [], applied := [] }

/-- C7 witness fixture: the id allocator sits at version 3, one behind the
event's table version 4. -/
def c7mds : MDSState :=
  { emptyMDS with
    idalloc := { version := 3, committed_version := 2, next_id := 40, free_ids := [] } }

/-- C7 witness fixture: the state after replaying a FREE of id 7 at table
version 4. -/
def c7mds' : MDSState := { c7mds with idalloc := c7mds.idalloc.reclaim_id 7 }

/-- C9 witness fixture: a concrete stray predicate (base 256, 16 nodes). -/
def c9stray : Nat → Bool := fun i => decide (256 ≤ i ∧ i < 256 + 16)

/-- C9 witness fixture: a lump order touching the root, a stray and a
fragment of an already-created inode. -/
def c9order : List dirfrag_t :=
  [{ ino := 1, frag := 0 }, { ino := 260, frag := 0 }, { ino := 1, frag := 1 }]

/-- C10 witness fixture: committed 1, committing 5, so an event with
cmapv 3 is unexpired while a covering commit is in flight. -/
def c10mds : MDSState :=
  { emptyMDS with clientmap_committed := 1, clientmap_committing := 5 }

/-- Erasing a key from an association list makes its lookup none. -/
theorem alookup_filter_ne {β : Type} (l : List (Nat × β)) (k : Nat) :
    alookup (l.filter fun p => decide (p.1 ≠ k)) k = none := by
  induction l with
  | nil => rfl
  | cons p rest ih =>
    rw [List.filter_cons]
    by_cases h : p.1 = k
    · simpa [h] using ih
    · simpa [alookup, h] using ih

/-- The assert(0) closing the dirlump case analysis of
EMetaBlob::has_expired is unreachable: the guard before it already
covers its condition. -/
theorem lump_check_isSome (mds : MDSState) (df : dirfrag_t) (l : dirlump) :
    (lump_check mds df l).isSome = true := by
  unfold lump_check
  cases hc : alookup mds.dirfrags df with
  | none => rfl
  | some dir =>
    by_cases h1 : dir.auth_first ≠ mds.nodeid
    · simp [h1]
    · by_cases h2 : l.dirv ≤ dir.committed_version
      · simp [h1, h2]
      · by_cases h3 : dir.ambiguous_dir_auth
        · simp [h1, h2, h3]
        · have h4 : dir.committed_version < l.dirv := Nat.lt_of_not_le h2
          simp [h1, h2, h3, h4]

/-- A dirlump is satisfied exactly when its dir, if still cached, is no
longer ours or has committed the lump's target version. -/
theorem lump_check_eq_true_iff (mds : MDSState) (df : dirfrag_t) (l : dirlump) :
    lump_check mds df l = some true ↔
      ∀ d, alookup mds.dirfrags df = some d →
        d.auth_first ≠ mds.nodeid ∨ l.dirv ≤ d.committed_version := by
  unfold lump_check
  cases hc : alookup mds.dirfrags df with
  | none => simp
  | some d =>
    by_cases h1 : d.auth_first ≠ mds.nodeid
    · simp [h1]
    · by_cases h2 : l.dirv ≤ d.committed_version
      · simp [h1, h2]
      · by_cases h3 : d.ambiguous_dir_auth
        · simp [h1, h2, h3]
        · have h4 : d.committed_version < l.dirv := Nat.lt_of_not_le h2
          simp [h1, h2, h3, h4]

/-- The dirlump loop never reaches an assert(0). -/
theorem checkLumps_isSome (mds : MDSState) (L : List (dirfrag_t × dirlump)) :
    (checkLumps mds L).isSome = true := by
  induction L with
  | nil => rfl
  | cons p rest ih =>
    obtain ⟨df, l⟩ := p
    unfold checkLumps
    have h := lump_check_isSome mds df l
    cases hc : lump_check mds df l with
    | none => rw [hc] at h; simp at h
    | some b => cases b <;> simp [ih]

/-- The dirlump loop succeeds exactly when every lump is satisfied. -/
theorem checkLumps_eq_true_iff (mds : MDSState) (L : List (dirfrag_t × dirlump)) :
    checkLumps mds L = some true ↔
      ∀ p ∈ L, lump_check mds p.1 p.2 = some true := by
  induction L with
  | nil => simp [checkLumps]
  | cons p rest ih =>
    obtain ⟨df, l⟩ := p
    unfold checkLumps
    cases hc : lump_check mds df l with
    | none =>
      simp only [List.mem_cons]
      constructor
      · intro h; cases h
      · intro h
        have := h (df, l) (Or.inl rfl)
        rw [hc] at this; cases this
    | some b =>
      cases b with
      | false =>
        simp only [List.mem_cons]
        constructor
        · intro h; cases h
        · intro h
          have := h (df, l) (Or.inl rfl)
          rw [hc] at this; cases this
      | true =>
        simp only [List.mem_cons, ih]
        constructor
        · intro h q hq
          rcases hq with hq | hq
          · subst hq; exact hc
          · exact h q hq
        · intro h q hq
          exact h q (Or.inr hq)

/-- EMetaBlob::has_expired never reaches its assert(0). -/
theorem metablob_has_expired_isSome (mds : MDSState) (b : EMetaBlob) :
    (EMetaBlob.has_expired mds b).isSome = true := by
  unfold EMetaBlob.has_expired
  have h := checkLumps_isSome mds b.lump_map
  cases hc : checkLumps mds b.lump_map with
  | none => rw [hc] at h; simp at h
  | some v => cases v <;> rfl

/-- Characterization of EMetaBlob::has_expired returning true: every
dirlump satisfied, every anchor transaction committed, nothing still
purging, no client request still registered. -/
theorem metablob_has_expired_eq_true_iff (mds : MDSState) (b : EMetaBlob) :
    EMetaBlob.has_expired mds b = some true ↔
      (∀ p ∈ b.lump_map, lump_check mds p.1 p.2 = some true) ∧
      (∀ a ∈ b.atids, a ∈ mds.anchor_committed) ∧
      (∀ p ∈ b.truncated_inodes, p ∉ mds.purging) ∧
      (∀ r ∈ b.client_reqs, r ∉ mds.completed_requests) := by
  unfold EMetaBlob.has_expired
  cases hc : checkLumps mds b.lump_map with
  | none =>
    have h := checkLumps_isSome mds b.lump_map
    rw [hc] at h; simp at h
  | some v =>
    cases v with
    | false =>
      constructor
      · intro h; cases h
      · intro ⟨h1, _⟩
        have := (checkLumps_eq_true_iff mds b.lump_map).mpr h1
        rw [hc] at this; cases this
    | true =>
      rw [checkLumps_eq_true_iff] at hc
      simp only [List.all_eq_true, decide_eq_true_eq, Bool.and_eq_true,
        Bool.not_eq_true', decide_eq_false_iff_not, Option.some_inj]
      constructor
      · intro h
        exact ⟨hc, h.1.1, h.1.2, h.2⟩
      · intro h
        exact ⟨⟨h.2.1, h.2.2.1⟩, h.2.2.2⟩

/-- EClientMap::has_expired is true exactly when the committed client map
covers cmapv. -/
theorem eclientmap_has_expired_eq_true_iff (mds : MDSState) (cmapv : Nat) :
    EClientMap.has_expired mds cmapv = true ↔
      cmapv ≤ mds.clientmap_committed := by
  unfold EClientMap.has_expired
  by_cases h1 : cmapv ≤ mds.clientmap_committed
  · simp [h1]
  · by_cases h2 : cmapv ≤ mds.clientmap_committing <;> simp [h1, h2]

/-- ESession::has_expired is true exactly when the committed client map
covers cmapv. -/
theorem esession_has_expired_eq_true_iff (mds : MDSState) (cmapv : Nat) :
    ESession.has_expired mds cmapv = true ↔
      cmapv ≤ mds.clientmap_committed := by
  unfold ESession.has_expired
  by_cases h1 : cmapv ≤ mds.clientmap_committed
  · simp [h1]
  · by_cases h2 : cmapv ≤ mds.clientmap_committing <;> simp [h1, h2]

/-- EAlloc::has_expired is true exactly when the idalloc committed version
covers the event's table version. -/
theorem ealloc_has_expired_eq_true_iff (mds : MDSState) (table_version : Nat) :
    EAlloc.has_expired mds table_version = true ↔
      table_version ≤ mds.idalloc.committed_version := by
  unfold EAlloc.has_expired
  by_cases h : mds.idalloc.committed_version < table_version <;> simp [h] <;> omega

/-- EAnchor::has_expired is true exactly when the anchor table committed
version covers the event's version. -/
theorem eanchor_has_expired_eq_true_iff (mds : MDSState) (version : Nat) :
    EAnchor.has_expired mds version = true ↔
      version ≤ mds.anchortable_committed := by
  unfold EAnchor.has_expired
  by_cases h : mds.anchortable_committed < version <;> simp [h] <;> omega

/-- EImportMap::has_expired is true exactly when a newer import map exists
or the log is capped. -/
theorem eimportmap_has_expired_eq_true_iff (mds : MDSState) (end_off : Nat) :
    EImportMap.has_expired mds end_off = true ↔
      end_off < mds.last_import_map ∨ mds.capped = true := by
  unfold EImportMap.has_expired
  by_cases h1 : end_off < mds.last_import_map
  · simp [h1]
  · by_cases h2 : mds.capped <;> simp [h1, h2]

/-- EExport::has_expired is true exactly when the base dirfrag is gone
from the cache or the migrator is done exporting it. -/
theorem eexport_has_expired_eq_true_iff (mds : MDSState) (base : dirfrag_t) :
    EExport.has_expired mds base = true ↔
      alookup mds.dirfrags base = none ∨ base ∉ mds.exporting_dirs := by
  unfold EExport.has_expired
  cases hc : alookup mds.dirfrags base with
  | none => simp
  | some d => simp [hc]

/-- EOpen::has_expired is true exactly when no listed inode is cached with
caps and a nonzero last_open_journaled at or below the start offset. -/
theorem eopen_has_expired_eq_true_iff (mds : MDSState) (inos : List Nat)
    (start_off : Nat) :
    EOpen.has_expired mds inos start_off = true ↔
      ∀ i ∈ inos, ∀ ci, alookup mds.inodes i = some ci →
        ¬(ci.any_caps = true ∧ ci.last_open_journaled ≠ 0 ∧
          ci.last_open_journaled ≤ start_off) := by
  unfold EOpen.has_expired
  rw [List.all_eq_true]
  refine forall_congr' fun i => imp_congr_right fun hi => ?_
  cases hc : alookup mds.inodes i with
  | none => simp
  | some ci =>
    simp only [Option.some_inj]
    constructor
    · intro h ci' hci'
      rw [← hci']
      intro hx
      obtain ⟨hcap, hnz, hle⟩ := hx
      simp only [hcap, Bool.true_and, Bool.not_not, Bool.or_eq_true,
        decide_eq_true_eq] at h
      rcases h with h | h <;> omega
    · intro h
      have hthis := h ci rfl
      by_cases hcap : ci.any_caps
      · have hd : start_off < ci.last_open_journaled ∨
            ci.last_open_journaled = 0 := by
          by_contra hcon
          push_neg at hcon
          exact hthis ⟨hcap, by omega, by omega⟩
        rcases hd with hd | hd <;> simp [hcap, hd]
      · simp [hcap]

/-- A satisfied dirlump stays satisfied under a forward evolution. -/
theorem lump_check_mono (s s' : MDSState) (hev : Evolves s s')
    (df : dirfrag_t) (l : dirlump)
    (h : lump_check s df l = some true) : lump_check s' df l = some true := by
  unfold Evolves at hev
  obtain ⟨hnode, hdirs, _⟩ := hev
  rw [lump_check_eq_true_iff] at h ⊢
  intro d' hd'
  obtain ⟨d, hd, hde⟩ := hdirs df d' hd'
  unfold dirEvolves at hde
  obtain ⟨hda, hdb, hdc⟩ := hde
  rcases h d hd with h1 | h2
  · left; rw [hda, hnode]; exact h1
  · right; exact le_trans h2 hdc

/-- An expired metablob stays expired under a forward evolution. -/
theorem metablob_has_expired_mono (s s' : MDSState) (hev : Evolves s s')
    (b : EMetaBlob) (h : EMetaBlob.has_expired s b = some true) :
    EMetaBlob.has_expired s' b = some true := by
  rw [metablob_has_expired_eq_true_iff] at h ⊢
  obtain ⟨h1, h2, h3, h4⟩ := h
  have hev' := hev
  unfold Evolves at hev'
  obtain ⟨hnode, hdirs, hinos, hanc, hpur, hreq, _⟩ := hev'
  refine ⟨fun p hp => lump_check_mono s s' hev p.1 p.2 (h1 p hp),
    fun a ha => hanc a (h2 a ha),
    fun p hp hmem => h3 p hp (hpur p hmem),
    fun r hr hmem => h4 r hr (hreq r hmem)⟩

/-- An expired Open event stays expired under a forward evolution, given
that the event sits in the log below the current write position. -/
theorem eopen_has_expired_mono (s s' : MDSState) (hev : Evolves s s')
    (inos : List Nat) (start_off : Nat) (hwf : start_off < s.write_pos)
    (h : EOpen.has_expired s inos start_off = true) :
    EOpen.has_expired s' inos start_off = true := by
  rw [eopen_has_expired_eq_true_iff] at h ⊢
  unfold Evolves at hev
  obtain ⟨_, _, hinos, _⟩ := hev
  intro i hi ci' hci'
  obtain ⟨ci, hci, hie⟩ := hinos i ci' hci'
  unfold inodeEvolves at hie
  obtain ⟨hcaps, hloj⟩ := hie
  intro hx
  obtain ⟨hc', hnz', hle'⟩ := hx
  have hc : ci.any_caps = true := hcaps hc'
  rcases hloj with heq | hge
  · exact h i hi ci hci ⟨hc, by omega, by omega⟩
  · omega

/-- Each sub firing decrements the pending count; the last one fires the
target exactly once. -/
theorem fireAll_fired (n f : Nat) (h : 1 ≤ n) :
    fireAll n { pending := n, fired := f } = { pending := 0, fired := f + 1 } := by
  induction n generalizing f with
  | zero => omega
  | succ m ih =>
    cases m with
    | zero =>
      show fireAll 0 (C_Gather.sub_finish { pending := 1, fired := f }) = _
      unfold C_Gather.sub_finish
      simp [fireAll]
    | succ k =>
      show fireAll (k + 1) (C_Gather.sub_finish { pending := k + 2, fired := f }) = _
      unfold C_Gather.sub_finish
      simp only [Nat.add_sub_cancel, if_neg (by omega : ¬ k + 2 = 1)]
      exact ih f (by omega)

/-- A Gather holding any number of subs fires its target exactly once. -/
theorem gatherFireCount_eq_one (n : Nat) : gatherFireCount n = 1 := by
  unfold gatherFireCount C_Gather.pump
  cases n with
  | zero => simp [fireAll]
  | succ m =>
    rw [if_neg (by omega : ¬ m + 1 = 0)]
    rw [fireAll_fired (m + 1) 0 (by omega)]

/-- The assert(0) closing the dirlump case analysis of EMetaBlob::expire
is unreachable. -/
theorem lump_action_ne_bad (mds : MDSState) (df : dirfrag_t) (l : dirlump) :
    lump_action mds df l ≠ LumpAction.bad := by
  unfold lump_action
  cases hc : alookup mds.dirfrags df with
  | none => simp
  | some d =>
    by_cases h1 : d.auth_first ≠ mds.nodeid
    · simp [h1]
    · by_cases h2 : l.dirv ≤ d.committed_version
      · simp [h1, h2]
      · by_cases h3 : d.ambiguous_dir_auth
        · simp [h1, h2, h3]
        · have h4 : d.committed_version < l.dirv := Nat.lt_of_not_le h2
          simp [h1, h2, h3, h4]

/-- The dirlump loop of EMetaBlob::expire never aborts. -/
theorem classifyLumps_isSome (mds : MDSState) (L : List (dirfrag_t × dirlump))
    (cm : List (dirfrag_t × Nat)) (nwait : Nat) :
    (classifyLumps mds L cm nwait).isSome = true := by
  induction L generalizing cm nwait with
  | nil => rfl
  | cons p rest ih =>
    obtain ⟨df, l⟩ := p
    unfold classifyLumps
    have hb := lump_action_ne_bad mds df l
    cases ha : lump_action mds df l with
    | skip => exact ih cm nwait
    | commitTo v => exact ih (commitInsert cm df v) nwait
    | waitMigration => exact ih cm (nwait + 1)
    | bad => exact absurd ha hb

/-- Splitting a replayed slave-update sequence at its last event. -/
theorem replaySlaveSeq_append (evs : List SlaveEvent) (e : SlaveEvent)
    (s s' : SlaveState)
    (h : replaySlaveSeq (evs ++ [e]) s = some s') :
    ∃ t, replaySlaveSeq evs s = some t ∧
      ESlaveUpdate.replay e.op e.reqid e.metablob t = some s' := by
  induction evs generalizing s with
  | nil =>
    simp only [List.nil_append] at h
    unfold replaySlaveSeq at h
    cases hr : ESlaveUpdate.replay e.op e.reqid e.metablob s with
    | none => rw [hr] at h; cases h
    | some t =>
      rw [hr] at h
      unfold replaySlaveSeq at h
      injection h with h
      exact ⟨s, rfl, by rw [hr, h]⟩
  | cons a rest ih =>
    simp only [List.cons_append] at h
    unfold replaySlaveSeq at h
    cases hr : ESlaveUpdate.replay a.op a.reqid a.metablob s with
    | none => rw [hr] at h; cases h
    | some s1 =>
      rw [hr] at h
      obtain ⟨t, ht, hlast⟩ := ih s1 h
      refine ⟨t, ?_, hlast⟩
      unfold replaySlaveSeq
      rw [hr]
      exact ht

/-- Replaying a COMMIT leaves no record for the request and applies the
stored blob exactly when one was stored. -/
theorem ESlaveUpdate_commit_effect (R : Nat) (mb : EMetaBlob)
    (t t' : SlaveState)
    (h : ESlaveUpdate.replay SlaveOp.OP_COMMIT R mb t = some t') :
    alookup t'.uncommitted_slave_updates R = none ∧
    ((∃ b, alookup t.uncommitted_slave_updates R = some b ∧
       t'.applied = t.applied ++ [b]) ∨
     (alookup t.uncommitted_slave_updates R = none ∧ t'.applied = t.applied)) := by
  unfold ESlaveUpdate.replay at h
  cases hc : alookup t.uncommitted_slave_updates R with
  | some b =>
    rw [hc] at h
    injection h with h
    rw [← h]
    exact ⟨alookup_filter_ne t.uncommitted_slave_updates R,
      Or.inl ⟨b, rfl, rfl⟩⟩
  | none =>
    rw [hc] at h
    injection h with h
    rw [← h]
    exact ⟨hc, Or.inr ⟨rfl, rfl⟩⟩

/-- Replaying an ABORT leaves no record for the request and never applies
anything. -/
theorem ESlaveUpdate_abort_effect (R : Nat) (mb : EMetaBlob)
    (t t' : SlaveState)
    (h : ESlaveUpdate.replay SlaveOp.OP_ABORT R mb t = some t') :
    alookup t'.uncommitted_slave_updates R = none ∧ t'.applied = t.applied := by
  unfold ESlaveUpdate.replay at h
  injection h with h
  rw [← h]
  exact ⟨alookup_filter_ne t.uncommitted_slave_updates R, rfl⟩

/-- The cache walk of EMetaBlob::replay succeeds when every inode missing
from the initial cache along lump_order is the root or a stray. -/
theorem replayDirs_isSome (isStray : Nat → Bool) (order dirs : List dirfrag_t)
    (inos : List Nat)
    (h : ∀ df ∈ order,
      df.ino ∈ inos ∨ df.ino = MDS_INO_ROOT ∨ isStray df.ino = true) :
    (replayDirs isStray order dirs inos).isSome = true := by
  induction order generalizing dirs inos with
  | nil => rfl
  | cons df rest ih =>
    have hrest : ∀ df' ∈ rest,
        df'.ino ∈ inos ∨ df'.ino = MDS_INO_ROOT ∨ isStray df'.ino = true :=
      fun df' hdf' => h df' (List.mem_cons_of_mem _ hdf')
    have hgrow : ∀ (x : Nat), ∀ df' ∈ rest,
        df'.ino ∈ x :: inos ∨ df'.ino = MDS_INO_ROOT ∨ isStray df'.ino = true := by
      intro x df' hdf'
      rcases hrest df' hdf' with ha | hb | hc
      · exact Or.inl (List.mem_cons_of_mem _ ha)
      · exact Or.inr (Or.inl hb)
      · exact Or.inr (Or.inr hc)
    unfold replayDirs replayDirStep
    by_cases h1 : df ∈ dirs
    · simp only [if_pos h1]
      exact ih dirs inos hrest
    · rw [if_neg h1]
      by_cases h2 : df.ino ∈ inos
      · simp only [if_pos h2]
        exact ih (df :: dirs) inos hrest
      · rw [if_neg h2]
        by_cases h3 : df.ino = MDS_INO_ROOT
        · simp only [if_pos h3]
          exact ih (df :: dirs) (df.ino :: inos) (hgrow df.ino)
        · rw [if_neg h3]
          rcases h df (List.mem_cons_self _ _) with ha | hb | hc
          · exact absurd ha h2
          · exact absurd hb h3
          · simp only [if_pos hc]
            exact ih (df :: dirs) (df.ino :: inos) (hgrow df.ino)

/-- C1 (counterexample): a metablob lump whose dirfrag is cached with
ambiguous dir authority on our own node is nonetheless reported expired
when the dir's committed version already covers the lump's dirv — the
committed-version check precedes the ambiguity check, so has_expired
returns true, not false as claimed. -/
theorem C1_ambiguous_auth_counterexample :
    alookup c1mds.dirfrags c1df = some c1dir ∧
    c1dir.ambiguous_dir_auth = true ∧
    c1dir.auth_first = c1mds.nodeid ∧
    (c1df, ({ dirv := 5 } : dirlump)) ∈ c1blob.lump_map ∧
    ({ dirv := 5 } : dirlump).dirv ≤ c1dir.committed_version ∧
    EMetaBlob.has_expired c1mds c1blob = some true := by
  decide

/-- C1 (amended): if some lump's dirfrag is cached, its authority's first
component is our node, its committed version is still below the lump's
dirv, and its dir authority is ambiguous (mid-migration), then
EMetaBlob::has_expired returns false. -/
theorem C1_ambiguous_uncommitted_not_expired
    (mds : MDSState) (b : EMetaBlob) (df : dirfrag_t) (l : dirlump)
    (d : CDirState)
    (hmem : (df, l) ∈ b.lump_map)
    (hdir : alookup mds.dirfrags df = some d)
    (hauth : d.auth_first = mds.nodeid)
    (hcv : d.committed_version < l.dirv)
    (hamb : d.ambiguous_dir_auth = true) :
    EMetaBlob.has_expired mds b = some false := by
  have hne : EMetaBlob.has_expired mds b ≠ some true := by
    intro hx
    rw [metablob_has_expired_eq_true_iff] at hx
    have := hx.1 (df, l) hmem
    rw [lump_check_eq_true_iff] at this
    rcases this d hdir with ha | hb
    · exact ha hauth
    · have hb' : l.dirv ≤ d.committed_version := hb
      omega
  have hs := metablob_has_expired_isSome mds b
  cases hc : EMetaBlob.has_expired mds b with
  | none => rw [hc] at hs; cases hs
  | some v =>
    cases v with
    | false => rfl
    | true => exact absurd hc hne

/-- C1 (witness): the amended statement at a concrete state: dirv 5,
committed version 3, ambiguous authority, our node. -/
theorem C1_ambiguous_uncommitted_not_expired_witness :
    EMetaBlob.has_expired c1wmds c1blob = some false :=
  C1_ambiguous_uncommitted_not_expired c1wmds c1blob c1df { dirv := 5 } c1wdir
    (by decide) (by decide) (by decide) (by decide) (by decide)

/-- C2: EMetaBlob::expire never reaches its assert(0), and the Gather it
builds around the caller's completion fires that completion exactly
once — also when no dependency is unsatisfied and zero subs are
registered (the zero-sub Gather fires at the creator's next pump). -/
theorem C2_expire_fires_exactly_once (mds : MDSState) (b : EMetaBlob) :
    EMetaBlob.expireFireCount mds b = some 1 := by
  unfold EMetaBlob.expireFireCount EMetaBlob.expire_subs
  have h := classifyLumps_isSome mds b.lump_map [] 0
  cases hc : classifyLumps mds b.lump_map [] 0 with
  | none => rw [hc] at h; cases h
  | some p =>
    obtain ⟨cm, nwait⟩ := p
    simp [gatherFireCount_eq_one]

/-- C3 (counterexample): invoking expire on an EString is not a fatal
programming error — the source's EString::expire just logs and returns,
so the claimed abort does not happen. -/
theorem C3_estring_expire_not_fatal_counterexample :
    EString.expire emptyMDS = ExpireOutcome.noop ∧
    EString.expire emptyMDS ≠ ExpireOutcome.aborts := by
  decide

/-- C3 (amended): the four always-expired event types always report
has_expired true; invoking expire aborts the process for EAnchorClient,
EPurgeFinish and EImportFinish, while EString's expire is a harmless
no-op (it neither aborts nor fires the completion). -/
theorem C3_always_expired_events (mds : MDSState) :
    EString.has_expired mds = true ∧
    EAnchorClient.has_expired mds = true ∧
    EPurgeFinish.has_expired mds = true ∧
    EImportFinish.has_expired mds = true ∧
    EString.expire mds = ExpireOutcome.noop ∧
    EAnchorClient.expire mds = ExpireOutcome.aborts ∧
    EPurgeFinish.expire mds = ExpireOutcome.aborts ∧
    EImportFinish.expire mds = ExpireOutcome.aborts :=
  ⟨rfl, rfl, rfl, rfl, rfl, rfl, rfl, rfl⟩

/-- C5: EOpen::has_expired is true iff no inode in inos is cached with
outstanding caps and a last_open_journaled that is nonzero and not past
the event's start offset (zero or a newer offset counts as superseded). -/
theorem C5_eopen_has_expired_iff (mds : MDSState) (inos : List Nat)
    (start_off : Nat) :
    EOpen.has_expired mds inos start_off = true ↔
      ∀ i ∈ inos, ∀ ci, alookup mds.inodes i = some ci →
        ¬(ci.any_caps = true ∧ ci.last_open_journaled ≠ 0 ∧
          ci.last_open_journaled ≤ start_off) :=
  eopen_has_expired_eq_true_iff mds inos start_off

/-- C8: EImportMap::has_expired is true iff a newer import map has been
written (mdlog last_import_map past this event's end offset) or the log
is capped. -/
theorem C8_eimportmap_has_expired_iff (mds : MDSState) (end_off : Nat) :
    EImportMap.has_expired mds end_off = true ↔
      end_off < mds.last_import_map ∨ mds.capped = true :=
  eimportmap_has_expired_eq_true_iff mds end_off

/-- C4 (counterexample): has_expired is not monotone under arbitrary
evolutions of the listed state components: an Open event at start
offset 400 is expired while inode 7 holds no caps, and flips back to
unexpired when a client re-acquires caps on it (an evolution of the
capability state only). -/
theorem C4_monotonicity_counterexample :
    LogEvent.has_expired (LogEvent.eopen emptyBlob [7] 400) c4sA = some true ∧
    LogEvent.has_expired (LogEvent.eopen emptyBlob [7] 400) c4sB = some false := by
  decide

/-- C4 (amended): has_expired is a pure function of the MDS state, and it
is monotone under normal forward evolutions (Evolves: cache entries
only dropped, caps only released, authority and ambiguity of surviving
dirs unchanged, versions and the write position only advancing, purges
and request registrations only retiring, a capped log staying capped,
exports only finishing, re-journaled opens landing at or past the old
write position), given that an Open event starts below the write
position. -/
theorem C4_has_expired_monotone (e : LogEvent) (s s' : MDSState)
    (hev : Evolves s s') (hwf : LogEvent.wf e s)
    (h : LogEvent.has_expired e s = some true) :
    LogEvent.has_expired e s' = some true := by
  have hev' := hev
  unfold Evolves at hev'
  obtain ⟨hnode, hdirs, hinos, hanc, hpur, hreq, hcc, hcg, hic, hac, him,
    hcap, hexp, hwp⟩ := hev'
  cases e with
  | estring => exact h
  | eanchorclient => exact h
  | epurgefinish => exact h
  | eimportfinish => exact h
  | eclientmap cmapv =>
    simp only [LogEvent.has_expired, Option.some_inj] at h ⊢
    rw [eclientmap_has_expired_eq_true_iff] at h ⊢
    omega
  | esession cmapv =>
    simp only [LogEvent.has_expired, Option.some_inj] at h ⊢
    rw [esession_has_expired_eq_true_iff] at h ⊢
    omega
  | ealloc what id tv =>
    simp only [LogEvent.has_expired, Option.some_inj] at h ⊢
    rw [ealloc_has_expired_eq_true_iff] at h ⊢
    omega
  | eanchor v =>
    simp only [LogEvent.has_expired, Option.some_inj] at h ⊢
    rw [eanchor_has_expired_eq_true_iff] at h ⊢
    omega
  | eupdate b =>
    simp only [LogEvent.has_expired] at h ⊢
    exact metablob_has_expired_mono s s' hev b h
  | eslaveupdate b op reqid =>
    simp only [LogEvent.has_expired] at h ⊢
    exact metablob_has_expired_mono s s' hev b h
  | eimportstart b =>
    simp only [LogEvent.has_expired] at h ⊢
    exact metablob_has_expired_mono s s' hev b h
  | eopen b inos so =>
    have hwf' : so < s.write_pos := hwf
    simp only [LogEvent.has_expired, Option.some_inj] at h ⊢
    exact eopen_has_expired_mono s s' hev inos so hwf' h
  | eimportmap eo =>
    simp only [LogEvent.has_expired, Option.some_inj] at h ⊢
    rw [eimportmap_has_expired_eq_true_iff] at h ⊢
    rcases h with h | h
    · left; omega
    · right; exact hcap h
  | eexport base =>
    simp only [LogEvent.has_expired, Option.some_inj] at h ⊢
    rw [eexport_has_expired_eq_true_iff] at h ⊢
    cases hc' : alookup s'.dirfrags base with
    | none => exact Or.inl rfl
    | some d' =>
      obtain ⟨d, hd, _⟩ := hdirs base d' hc'
      rcases h with h | h
      · rw [hd] at h; cases h
      · exact Or.inr fun hmem => h (hexp base hmem)

/-- C4 (witness): the amended monotonicity at a concrete pair of states:
an import map at end offset 10 expired because a newer map was written
at offset 20; after the evolution writes yet a newer map at offset 30,
it stays expired. -/
theorem C4_has_expired_monotone_witness :
    LogEvent.has_expired (LogEvent.eimportmap 10) c4ws' = some true := by
  apply C4_has_expired_monotone (LogEvent.eimportmap 10) c4ws c4ws'
  · unfold Evolves
    refine ⟨rfl, ?_, ?_, ?_, ?_, ?_, ?_, ?_, ?_, ?_, ?_, ?_, ?_, ?_⟩
    · intro df d' hd'
      simp [c4ws', emptyMDS, alookup] at hd'
    · intro i ci' hci'
      simp [c4ws', emptyMDS, alookup] at hci'
    · intro a ha
      simp [c4ws, emptyMDS] at ha
    · intro p hp
      simp [c4ws', emptyMDS] at hp
    · intro r hr
      simp [c4ws', emptyMDS] at hr
    · decide
    · decide
    · decide
    · decide
    · decide
    · decide
    · intro df hdf
      simp [c4ws', emptyMDS] at hdf
    · decide
  · exact trivial
  · decide

/-- C6: after replaying any prefix (in particular one containing the
PREPARE for reqid R) followed by a final COMMIT or ABORT for R, the
uncommitted_slave_updates map has no entry for R; moreover a COMMIT
applies the stored metablob exactly when a prepared record exists, and
an ABORT discards any record without ever applying a metablob. -/
theorem C6_slaveupdate_resolution
    (pre : List SlaveEvent) (e : SlaveEvent) (s s' : SlaveState) (R : Nat)
    (hop : e.op = SlaveOp.OP_COMMIT ∨ e.op = SlaveOp.OP_ABORT)
    (hreq : e.reqid = R)
    (hrun : replaySlaveSeq (pre ++ [e]) s = some s') :
    alookup s'.uncommitted_slave_updates R = none ∧
    (∀ (t t' : SlaveState) (mb : EMetaBlob),
      ESlaveUpdate.replay SlaveOp.OP_COMMIT R mb t = some t' →
      alookup t'.uncommitted_slave_updates R = none ∧
      ((∃ b, alookup t.uncommitted_slave_updates R = some b ∧
         t'.applied = t.applied ++ [b]) ∨
       (alookup t.uncommitted_slave_updates R = none ∧
         t'.applied = t.applied))) ∧
    (∀ (t t' : SlaveState) (mb : EMetaBlob),
      ESlaveUpdate.replay SlaveOp.OP_ABORT R mb t = some t' →
      alookup t'.uncommitted_slave_updates R = none ∧
      t'.applied = t.applied) := by
  obtain ⟨t, hpre, hlast⟩ := replaySlaveSeq_append pre e s s' hrun
  subst hreq
  refine ⟨?_, fun t t' mb hx => ESlaveUpdate_commit_effect e.reqid mb t t' hx,
    fun t t' mb hx => ESlaveUpdate_abort_effect e.reqid mb t t' hx⟩
  rcases hop with hc | ha
  · rw [hc] at hlast
    exact (ESlaveUpdate_commit_effect e.reqid e.metablob t s' hlast).1
  · rw [ha] at hlast
    exact (ESlaveUpdate_abort_effect e.reqid e.metablob t s' hlast).1

/-- C6 (witness): replaying PREPARE then ABORT for reqid 5 from an empty
map leaves no entry for 5. -/
theorem C6_slaveupdate_resolution_witness :
    alookup c6sFinal.uncommitted_slave_updates 5 = none :=
  (C6_slaveupdate_resolution [c6prep] c6fin c6s0 c6sFinal 5 (Or.inr rfl) rfl
    (by decide)).1

/-- C7: EAlloc::replay is a no-op when the allocator version already
covers table_version; otherwise, under the asserted precondition that
the allocator is exactly one version behind, any successful replay
lands the allocator on table_version, an ALLOC yielded exactly the
recorded id, and a FREE reclaimed the recorded id (and a FREE always
succeeds). -/
theorem C7_ealloc_replay_spec (mds : MDSState) (what : EAllocWhat)
    (id table_version : Nat) :
    (table_version ≤ mds.idalloc.version →
      EAlloc.replay mds what id table_version = some mds) ∧
    (mds.idalloc.version + 1 = table_version →
      (∀ s', EAlloc.replay mds what id table_version = some s' →
        s'.idalloc.version = table_version ∧
        (what = EAllocWhat.EALLOC_EV_ALLOC →
          mds.idalloc.alloc_id.1 = id ∧ s'.idalloc = mds.idalloc.alloc_id.2) ∧
        (what = EAllocWhat.EALLOC_EV_FREE →
          s'.idalloc = mds.idalloc.reclaim_id id ∧
          id ∈ s'.idalloc.free_ids)) ∧
      (what = EAllocWhat.EALLOC_EV_FREE →
        EAlloc.replay mds what id table_version =
          some { mds with idalloc := mds.idalloc.reclaim_id id })) := by
  constructor
  · intro hle
    unfold EAlloc.replay
    rw [if_pos hle]
  · intro hv
    have hnle : ¬ table_version ≤ mds.idalloc.version := by omega
    have hne : ¬ mds.idalloc.version ≠ table_version - 1 := by omega
    constructor
    · intro s' hs'
      unfold EAlloc.replay at hs'
      rw [if_neg hnle, if_neg hne] at hs'
      cases what with
      | EALLOC_EV_ALLOC =>
        simp only [IdAllocState.alloc_id] at hs'
        by_cases hid : mds.idalloc.next_id ≠ id
        · rw [if_pos hid] at hs'
          cases hs'
        · rw [if_neg hid] at hs'
          rw [if_neg (show ¬ mds.idalloc.version + 1 ≠ table_version by omega)]
            at hs'
          injection hs' with hs'
          rw [← hs']
          refine ⟨by simp [hv], fun _ => ?_, fun hw => by simp at hw⟩
          constructor
          · simp only [IdAllocState.alloc_id]
            omega
          · simp [IdAllocState.alloc_id]
      | EALLOC_EV_FREE =>
        simp only [IdAllocState.reclaim_id] at hs'
        rw [if_neg (show ¬ mds.idalloc.version + 1 ≠ table_version by omega)]
          at hs'
        injection hs' with hs'
        rw [← hs']
        refine ⟨by simp [hv], fun hw => by simp at hw, fun _ => ?_⟩
        constructor
        · simp [IdAllocState.reclaim_id]
        · simp [IdAllocState.reclaim_id]
    · intro hw
      subst hw
      unfold EAlloc.replay
      rw [if_neg hnle, if_neg hne]
      simp only [IdAllocState.reclaim_id]
      rw [if_neg (show ¬ mds.idalloc.version + 1 ≠ table_version by omega)]

/-- C7 (witness): a FREE of id 7 at table version 4 against an allocator
at version 3 succeeds, reclaims 7 and lands the table on version 4. -/
theorem C7_ealloc_replay_spec_witness :
    EAlloc.replay c7mds EAllocWhat.EALLOC_EV_FREE 7 4 = some c7mds' ∧
    (7 : Nat) ∈ c7mds'.idalloc.free_ids ∧
    c7mds'.idalloc.version = 4 := by
  have h := (C7_ealloc_replay_spec c7mds EAllocWhat.EALLOC_EV_FREE 7 4).2
    (by decide)
  exact ⟨h.2 rfl, by decide, by decide⟩

/-- C9: during the dirfrag walk of EMetaBlob::replay, a dirfrag whose dir
and containing inode are both missing creates the root when the inode
is the root, creates the stray when the inode is a stray, and aborts
fatally for any other inode; the fatal branch is unreachable whenever
every inode missing from the initial cache along lump_order is the
root or a stray. -/
theorem C9_replay_dir_resolution (isStray : Nat → Bool)
    (order dirs : List dirfrag_t) (inos : List Nat)
    (h : ∀ df ∈ order,
      df.ino ∈ inos ∨ df.ino = MDS_INO_ROOT ∨ isStray df.ino = true) :
    (replayDirs isStray order dirs inos).isSome = true ∧
    (∀ (df : dirfrag_t) (rest : List dirfrag_t) (dirs' : List dirfrag_t)
      (inos' : List Nat),
      df ∉ dirs' → df.ino ∉ inos' → df.ino = MDS_INO_ROOT →
      replayDirs isStray (df :: rest) dirs' inos' =
        replayDirs isStray rest (df :: dirs') (df.ino :: inos')) ∧
    (∀ (df : dirfrag_t) (rest : List dirfrag_t) (dirs' : List dirfrag_t)
      (inos' : List Nat),
      df ∉ dirs' → df.ino ∉ inos' → df.ino ≠ MDS_INO_ROOT →
      isStray df.ino = true →
      replayDirs isStray (df :: rest) dirs' inos' =
        replayDirs isStray rest (df :: dirs') (df.ino :: inos')) ∧
    (∀ (df : dirfrag_t) (rest : List dirfrag_t) (dirs' : List dirfrag_t)
      (inos' : List Nat),
      df ∉ dirs' → df.ino ∉ inos' → df.ino ≠ MDS_INO_ROOT →
      isStray df.ino = false →
      replayDirs isStray (df :: rest) dirs' inos' = none) := by
  refine ⟨replayDirs_isSome isStray order dirs inos h, ?_, ?_, ?_⟩
  · intro df rest dirs' inos' h1 h2 h3
    have hstep : replayDirStep isStray df dirs' inos'
        = some (df :: dirs', df.ino :: inos') := by
      unfold replayDirStep
      rw [if_neg h1, if_neg h2, if_pos h3]
    simp only [replayDirs, hstep]
  · intro df rest dirs' inos' h1 h2 h3 h4
    have hstep : replayDirStep isStray df dirs' inos'
        = some (df :: dirs', df.ino :: inos') := by
      unfold replayDirStep
      rw [if_neg h1, if_neg h2, if_neg h3, if_pos h4]
    simp only [replayDirs, hstep]
  · intro df rest dirs' inos' h1 h2 h3 h4
    unfold replayDirs replayDirStep
    rw [if_neg h1, if_neg h2, if_neg h3,
      if_neg (show ¬ isStray df.ino = true by simp [h4])]

/-- C9 (witness): a walk touching the root, a stray (base 256) and a
second fragment of the root succeeds from an empty cache. -/
theorem C9_replay_dir_resolution_witness :
    (replayDirs c9stray c9order [] []).isSome = true :=
  (C9_replay_dir_resolution c9stray c9order [] [] (by decide)).1

/-- C10: when an EClientMap or ESession event is unexpired
(committed < cmapv), the assert in their expire is valid: if the
in-flight branch is taken (committing >= cmapv) then
committing > committed, so neither expire can abort. -/
theorem C10_clientmap_expire_assert_valid (mds : MDSState) (cmapv : Nat)
    (h : mds.clientmap_committed < cmapv) :
    (cmapv ≤ mds.clientmap_committing →
      mds.clientmap_committed < mds.clientmap_committing) ∧
    (EClientMap.expire mds cmapv).isSome = true ∧
    (ESession.expire mds cmapv).isSome = true := by
  refine ⟨fun h2 => by omega, ?_, ?_⟩
  · unfold EClientMap.expire
    by_cases h1 : cmapv ≤ mds.clientmap_committing
    · rw [if_pos h1, if_pos (by omega)]
      rfl
    · rw [if_neg h1]
      rfl
  · unfold ESession.expire
    by_cases h1 : cmapv ≤ mds.clientmap_committing
    · rw [if_pos h1, if_pos (by omega)]
      rfl
    · rw [if_neg h1]
      rfl

/-- C10 (witness): committed 1, committing 5, cmapv 3: both expire paths
take the in-flight branch and neither aborts. -/
theorem C10_clientmap_expire_assert_valid_witness :
    (EClientMap.expire c10mds 3).isSome = true ∧
    (ESession.expire c10mds 3).isSome = true := by
  have h := C10_clientmap_expire_assert_valid c10mds 3 (by decide)
  exact ⟨h.2.1, h.2.2⟩

/-- C2 (witness): the empty metablob registers zero subs and the
completion still fires exactly once. -/
theorem C2_expire_fires_exactly_once_witness :
    EMetaBlob.expireFireCount emptyMDS emptyBlob = some 1 :=
  C2_expire_fires_exactly_once emptyMDS emptyBlob

/-- C3 (witness): the amended statement at a concrete state. -/
theorem C3_always_expired_events_witness :
    EString.has_expired emptyMDS = true ∧
    EAnchorClient.has_expired emptyMDS = true ∧
    EPurgeFinish.has_expired emptyMDS = true ∧
    EImportFinish.has_expired emptyMDS = true ∧
    EString.expire emptyMDS = ExpireOutcome.noop ∧
    EAnchorClient.expire emptyMDS = ExpireOutcome.aborts ∧
    EPurgeFinish.expire emptyMDS = ExpireOutcome.aborts ∧
    EImportFinish.expire emptyMDS = ExpireOutcome.aborts :=
  C3_always_expired_events emptyMDS

/-- C5 (witness): inode 7 without caps at start offset 400 makes the Open
event expired. -/
theorem C5_eopen_has_expired_iff_witness :
    EOpen.has_expired c4sA [7] 400 = true :=
  (C5_eopen_has_expired_iff c4sA [7] 400).mpr (by decide)

/-- C8 (witness): an import map ending at offset 10 is expired once a
newer map was written at offset 20. -/
theorem C8_eimportmap_has_expired_iff_witness :
    EImportMap.has_expired c4ws 10 = true :=
  (C8_eimportmap_has_expired_iff c4ws 10).mpr (Or.inl (by decide))
